import Mathlib

/-!
Shallow embedding of the amp-selector widget
(src/extensions/amp-selector/0.1/amp-selector.js).

DOM option elements are modelled as records of the attributes the widget
reads and writes; element identity is the index of the element in the
`elems` table, mirroring reference identity in the source. The widget
state carries the private fields of the `AmpSelector` class; the lists
`options` and `selectedOptions` hold element indices, as the source holds
element references. DOM side effects (attribute writes, hidden-input
creation) are recorded in the state. The keydown handler returns
`Except`, with `Except.error` marking the TypeError a JS engine raises
when `options_[focusedIndex_]` is `undefined`.
-/

/-- The `KEYBOARD_SELECT_MODES` enum of the source. -/
inductive KbSelectMode
  | none
  | focus
  | select
  deriving DecidableEq

/-- Attributes of a DOM element carrying the `option` marker, as read and
written by the widget: the `option` value, presence of `selected` and
`disabled`, the ARIA mirrors, the role, and `tabIndex`. -/
structure OptionEl where
  optionValue : String
  hasSelected : Bool
  hasDisabled : Bool
  ariaSelected : Option String := Option.none
  ariaDisabled : Option String := Option.none
  role : Option String := Option.none
  tabIndex : Int := -1
  deriving DecidableEq, Inhabited

/-- A hidden `input` element created by `setInputs_`. -/
structure HiddenInput where
  name : String
  value : String
  form : Option String
  deriving DecidableEq, Inhabited

/-- Payload of the `select` custom event dispatched by `onOptionPicked_`. -/
structure SelectEvent where
  targetOption : String
  selectedOptions : List String
  deriving DecidableEq

/-- State of an `AmpSelector` instance. `elems` is the table of DOM
elements carrying the `option` marker (document order); `options` and
`selectedOptions` store indices into `elems`, standing for the element
references held by the source. `name` and `formId` model
`getAttribute` results on the host element (`Option.none` for null). -/
structure Widget where
  isMultiple : Bool
  isDisabled : Bool
  kbSelectMode : KbSelectMode
  name : Option String
  formId : Option String
  elems : List OptionEl
  options : List Nat
  selectedOptions : List Nat
  inputs : List HiddenInput
  focusedIndex : Int
  deriving DecidableEq

/-- JavaScript falsiness of a nullable string: null and the empty string
are falsy. -/
def jsFalsyStr : Option String → Bool
  | Option.none => true
  | some s => s == ""

/-- Mutation of the attributes of the element with index `i`; a no-op on
an index with no element (the source always holds a real reference). -/
def modifyElem (w : Widget) (i : Nat) (f : OptionEl → OptionEl) : Widget :=
  match w.elems[i]? with
  | Option.none => w
  | some el => { w with elems := w.elems.set i (f el) }

/-- The `clearSelection_` method: remove the `selected` attribute, set
`aria-selected` to false, and splice the element out of
`selectedOptions_` when present (`indexOf` plus `splice` removes the
first occurrence). -/
def clearSelection_ (i : Nat) (w : Widget) : Widget :=
  let w1 := modifyElem w i (fun el =>
    { el with hasSelected := false, ariaSelected := some "false" })
  { w1 with selectedOptions := w1.selectedOptions.erase i }

/-- One round of the `while` loop of `clearAllSelections_`: pop the last
selected element and run `clearSelection_` on it. The fuel argument
bounds the iteration count; every round shortens `selectedOptions`, so
fuel equal to the initial length makes the loop run to emptiness exactly
as the source loop does. -/
def clearAllLoop : Nat → Widget → Widget
  | 0, w => w
  | fuel + 1, w =>
    match w.selectedOptions.getLast? with
    | Option.none => w
    | some el =>
      clearAllLoop fuel
        (clearSelection_ el { w with selectedOptions := w.selectedOptions.dropLast })

/-- The `clearAllSelections_` method: repeatedly pop the last selected
element and clear it, until none is left. -/
def clearAllSelections_ (w : Widget) : Widget :=
  clearAllLoop w.selectedOptions.length w

/-- The `setSelection_` method: exit when the element is already in
`selectedOptions_`; in single-select mode first clear all selections;
then set `selected` and `aria-selected` and push the element. -/
def setSelection_ (i : Nat) (w : Widget) : Widget :=
  if w.selectedOptions.contains i then w
  else
    let w1 := if w.isMultiple then w else clearAllSelections_ w
    let w2 := modifyElem w1 i (fun el =>
      { el with hasSelected := true, ariaSelected := some "true" })
    { w2 with selectedOptions := w2.selectedOptions ++ [i] }

/-- A hidden input as built in the loop body of `setInputs_`: type
hidden, the configured field name, the option value, and the `form`
attribute only when a form id is configured (truthy). -/
def mkHiddenInput (elementName : String) (formId : Option String) (el : OptionEl) : HiddenInput :=
  { name := elementName
    value := el.optionValue
    form := if jsFalsyStr formId then Option.none else formId }

/-- The `setInputs_` method: return the empty list when the host has no
truthy `name` attribute or the widget is disabled; otherwise drop the
previously created hidden inputs, create one hidden input per selected
element without the `disabled` attribute, in `selectedOptions_` order,
and return the option values actually emitted. -/
def setInputs_ (w : Widget) : Widget × List String :=
  if jsFalsyStr w.name || w.isDisabled then (w, [])
  else
    let elementName := w.name.getD ""
    let newInputs := w.selectedOptions.filterMap (fun i =>
      match w.elems[i]? with
      | Option.none => Option.none
      | some el =>
        if el.hasDisabled then Option.none
        else some (mkHiddenInput elementName w.formId el))
    ({ w with inputs := newInputs }, newInputs.map HiddenInput.value)

/-- JavaScript `Array.prototype.indexOf`: the index of the first
occurrence, or -1 when absent. -/
def jsIndexOf (l : List Nat) (a : Nat) : Int :=
  match l.findIdx? (fun x => x == a) with
  | some k => (k : Int)
  | Option.none => -1

/-- The `updateFocus_` method: do nothing when keyboard-select-mode is
none; otherwise set every option to `tabIndex = -1`, pick the first
option for multi-select or the first selected option (falling back to
the first option) for single-select, record its index in
`focusedIndex_`, and give it `tabIndex = 0`. -/
def updateFocus_ (w : Widget) : Widget :=
  if w.kbSelectMode = KbSelectMode.none then w
  else
    let w1 := w.options.foldl
      (fun acc i => modifyElem acc i (fun el => { el with tabIndex := -1 })) w
    let cand :=
      if w1.isMultiple then w1.options.head?
      else
        match w1.selectedOptions.head? with
        | some x => some x
        | Option.none => w1.options.head?
    match cand with
    | Option.none => w1
    | some i =>
      let w2 := { w1 with focusedIndex := jsIndexOf w1.options i }
      modifyElem w2 i (fun el => { el with tabIndex := 0 })

/-- The loop body of `init_` for the element with index `i`: set the
role, mirror `disabled` into `aria-disabled`, run `setSelection_` when
the element carries `selected` and `clearSelection_` otherwise, set
`tabIndex = 0`, and push the element onto `options_`. -/
def initStep (w : Widget) (i : Nat) : Widget :=
  let w1 := modifyElem w i (fun el => { el with role := some "option" })
  let w2 :=
    match w1.elems[i]? with
    | some el =>
      if el.hasDisabled then
        modifyElem w1 i (fun e => { e with ariaDisabled := some "true" })
      else w1
    | Option.none => w1
  let w3 :=
    match w2.elems[i]? with
    | some el => if el.hasSelected then setSelection_ i w2 else clearSelection_ i w2
    | Option.none => w2
  let w4 := modifyElem w3 i (fun el => { el with tabIndex := 0 })
  { w4 with options := w4.options ++ [i] }

/-- The `init_` method: process every element carrying the `option`
marker in document order, then run `updateFocus_` and `setInputs_`. -/
def init_ (w : Widget) : Widget :=
  let w1 := (List.range w.elems.length).foldl initStep w
  (setInputs_ (updateFocus_ w1)).1

/-- Values the `selected` attribute mutation can deliver: null, a single
value, or an array of values (numbers arrive as their string form, as
object keys are strings in JavaScript). -/
inductive SelVal
  | nullV
  | strV (s : String)
  | listV (l : List String)
  deriving DecidableEq

/-- The `selectedAttributeMutated_` method: on null, clear all
selections and return (without touching focus or inputs); otherwise
normalize to an array, keep only the first entry for single-select,
then walk `options_` selecting members of the requested set and
clearing the rest, and finish with `updateFocus_` and `setInputs_`. -/
def selectedAttributeMutated_ (newValue : SelVal) (w : Widget) : Widget :=
  match newValue with
  | SelVal.nullV => clearAllSelections_ w
  | v =>
    let selectedArray :=
      match v with
      | SelVal.listV l => l
      | SelVal.strV s => [s]
      | SelVal.nullV => []
    let selectedArray := if w.isMultiple then selectedArray else selectedArray.take 1
    let w1 := w.options.foldl (fun acc i =>
      match acc.elems[i]? with
      | Option.none => acc
      | some el =>
        if selectedArray.contains el.optionValue then setSelection_ i acc
        else clearSelection_ i acc) w
    (setInputs_ (updateFocus_ w1)).1

/-- The `onOptionPicked_` method: ignore disabled elements; toggle off an
already selected element only in multi-select mode; select an
unselected element; when a selection list was produced (even an empty
one, since an empty array is truthy), update focus and dispatch the
`select` event with the target option value and the emitted values. -/
def onOptionPicked_ (i : Nat) (w : Widget) : Widget × Option SelectEvent :=
  match w.elems[i]? with
  | Option.none => (w, Option.none)
  | some el =>
    if el.hasDisabled then (w, Option.none)
    else
      let step :=
        if el.hasSelected then
          if w.isMultiple then
            let wc := clearSelection_ i w
            let res := setInputs_ wc
            (res.1, some res.2)
          else (w, (Option.none : Option (List String)))
        else
          let ws := setSelection_ i w
          let res := setInputs_ ws
          (res.1, some res.2)
      match step.2 with
      | Option.none => (step.1, Option.none)
      | some vals =>
        let w2 := updateFocus_ step.1
        let target :=
          match w2.elems[i]? with
          | some el2 => el2.optionValue
          | Option.none => ""
        (w2, some { targetOption := target, selectedOptions := vals })

/-- Keys the keydown handler inspects; `other` stands for every other
key code. -/
inductive Key
  | leftArrow
  | upArrow
  | rightArrow
  | downArrow
  | other
  deriving DecidableEq

/-- Direction derived from the pressed key and the document text
direction, as in the `switch` of `keyDownHandler_`. -/
def keyDir (isLtr : Bool) (k : Key) : Int :=
  match k with
  | Key.leftArrow => if isLtr then -1 else 1
  | Key.upArrow => -1
  | Key.rightArrow => if isLtr then 1 else -1
  | Key.downArrow => 1
  | Key.other => 0

/-- JavaScript indexing of an array by a (possibly negative) number:
`undefined` outside the valid range. -/
def elemAtInt (l : List Nat) (i : Int) : Option Nat :=
  if 0 ≤ i then l[i.toNat]? else Option.none

/-- The wraparound arithmetic of `keyDownHandler_`: the JavaScript `%`
operator is the truncating remainder, and a negative result is shifted
up by the length. -/
def navStep (len fi dir : Int) : Int :=
  let r := Int.tmod (fi + dir) len
  if r < 0 then r + len else r

/-- The `keyDownHandler_` method: compute the direction (other keys
return immediately), make the currently focused option unfocusable --
a TypeError when `options_[focusedIndex_]` is `undefined`, which the
embedding surfaces as `Except.error` -- advance `focusedIndex_` with
wraparound, focus the new option, and in select mode run
`onOptionPicked_` on it. -/
def keyDownHandler_ (isLtr : Bool) (k : Key) (w : Widget) :
    Except String (Widget × Option SelectEvent) :=
  let dir := keyDir isLtr k
  if dir = 0 then Except.ok (w, Option.none)
  else
    match elemAtInt w.options w.focusedIndex with
    | Option.none => Except.error "TypeError: no option at focusedIndex"
    | some i =>
      let w1 := modifyElem w i (fun el => { el with tabIndex := -1 })
      let w2 := { w1 with
        focusedIndex := navStep (w1.options.length : Int) w1.focusedIndex dir }
      match elemAtInt w2.options w2.focusedIndex with
      | Option.none => Except.error "TypeError: no option at focusedIndex"
      | some j =>
        let w3 := modifyElem w2 j (fun el => { el with tabIndex := 0 })
        if w3.kbSelectMode = KbSelectMode.select then Except.ok (onOptionPicked_ j w3)
        else Except.ok (w3, Option.none)

/-- State reached after one keydown, dropping the event and mapping an
error to the unchanged state (a thrown TypeError aborts the handler). -/
def navIter (isLtr : Bool) (k : Key) (w : Widget) : Widget :=
  match keyDownHandler_ isLtr k w with
  | Except.ok res => res.1
  | Except.error _ => w

/-- Property of an element with the `selected` attribute removed and
`aria-selected` false, as written by `clearSelection_`. -/
def Deselected (e : OptionEl) : Prop :=
  e.hasSelected = false ∧ e.ariaSelected = some "false"

/-- Boolean reading of the `selected` attribute of the element with
index `j` (false when there is no such element). -/
def markedB (l : List OptionEl) (j : Nat) : Bool :=
  match l[j]? with
  | some el => el.hasSelected
  | Option.none => false

/-- Index of the last element among the first `k` that carries the
`selected` attribute in the markup table `l`, if any. -/
def lastSel (l : List OptionEl) : Nat → Option Nat
  | 0 => Option.none
  | k + 1 => if markedB l k then some k else lastSel l k

/-- An option element with the given value and markup `selected` and
`disabled` attributes, before initialization. -/
def mkEl (v : String) (sel dis : Bool) : OptionEl :=
  { optionValue := v, hasSelected := sel, hasDisabled := dis }

/-- A multi-select widget with a configured form-field name and two
options both marked `selected` in the markup, before initialization. -/
def twoSelMulti : Widget :=
  { isMultiple := true, isDisabled := false, kbSelectMode := KbSelectMode.none,
    name := some "fld", formId := Option.none,
    elems := [mkEl "x" true false, mkEl "y" true false],
    options := [], selectedOptions := [], inputs := [], focusedIndex := 0 }

/-- A single-select widget with three options all marked `selected` in
the markup, before initialization. -/
def threeSelSingle : Widget :=
  { isMultiple := false, isDisabled := false, kbSelectMode := KbSelectMode.none,
    name := Option.none, formId := Option.none,
    elems := [mkEl "x" true false, mkEl "y" true false, mkEl "z" true false],
    options := [], selectedOptions := [], inputs := [], focusedIndex := 0 }

/-- A keyboard-focus widget with zero options. -/
def zeroOptionsWidget : Widget :=
  { isMultiple := false, isDisabled := false, kbSelectMode := KbSelectMode.focus,
    name := Option.none, formId := Option.none,
    elems := [], options := [], selectedOptions := [], inputs := [], focusedIndex := 0 }

/-- An initialized keyboard-focus widget with three options, none
selected, focus on the middle one. -/
def threeNavWidget : Widget :=
  { isMultiple := false, isDisabled := false, kbSelectMode := KbSelectMode.focus,
    name := Option.none, formId := Option.none,
    elems := [mkEl "x" false false, mkEl "y" false false, mkEl "z" false false],
    options := [0, 1, 2], selectedOptions := [], inputs := [], focusedIndex := 1 }

/-- An initialized single-select widget without a `name` attribute, two
options, none selected. -/
def noNameWidget : Widget :=
  { isMultiple := false, isDisabled := false, kbSelectMode := KbSelectMode.none,
    name := Option.none, formId := Option.none,
    elems := [mkEl "x" false false, mkEl "y" false (true : Bool)],
    options := [0, 1], selectedOptions := [], inputs := [], focusedIndex := 0 }

/-- An initialized single-select widget with a `name` attribute whose
first option is selected; the second option is deselected with its
attributes in the state `clearSelection_` leaves. -/
def oneSelWidget : Widget :=
  { isMultiple := false, isDisabled := false, kbSelectMode := KbSelectMode.none,
    name := some "fld", formId := Option.none,
    elems := [{ mkEl "x" true false with ariaSelected := some "true" },
              { mkEl "y" false false with ariaSelected := some "false" }],
    options := [0, 1], selectedOptions := [0], inputs := [], focusedIndex := 0 }

/-- An initialized multi-select widget with a form-field name and two
selected options, the second of which carries the `disabled` attribute. -/
def formSyncWidget : Widget :=
  { isMultiple := true, isDisabled := false, kbSelectMode := KbSelectMode.none,
    name := some "fld", formId := some "frm",
    elems := [{ mkEl "a" true false with ariaSelected := some "true" },
              { mkEl "b" true true with ariaSelected := some "true" }],
    options := [0, 1], selectedOptions := [0, 1], inputs := [], focusedIndex := 0 }

/-! Helper lemmas: field preservation and element access for each
method of the embedding. -/

theorem modifyElem_isMultiple (w : Widget) (i : Nat) (f : OptionEl → OptionEl) :
    (modifyElem w i f).isMultiple = w.isMultiple := by
  unfold modifyElem; split <;> rfl

theorem modifyElem_isDisabled (w : Widget) (i : Nat) (f : OptionEl → OptionEl) :
    (modifyElem w i f).isDisabled = w.isDisabled := by
  unfold modifyElem; split <;> rfl

theorem modifyElem_kbSelectMode (w : Widget) (i : Nat) (f : OptionEl → OptionEl) :
    (modifyElem w i f).kbSelectMode = w.kbSelectMode := by
  unfold modifyElem; split <;> rfl

theorem modifyElem_name (w : Widget) (i : Nat) (f : OptionEl → OptionEl) :
    (modifyElem w i f).name = w.name := by
  unfold modifyElem; split <;> rfl

theorem modifyElem_formId (w : Widget) (i : Nat) (f : OptionEl → OptionEl) :
    (modifyElem w i f).formId = w.formId := by
  unfold modifyElem; split <;> rfl

theorem modifyElem_options (w : Widget) (i : Nat) (f : OptionEl → OptionEl) :
    (modifyElem w i f).options = w.options := by
  unfold modifyElem; split <;> rfl

theorem modifyElem_selectedOptions (w : Widget) (i : Nat) (f : OptionEl → OptionEl) :
    (modifyElem w i f).selectedOptions = w.selectedOptions := by
  unfold modifyElem; split <;> rfl

theorem modifyElem_inputs (w : Widget) (i : Nat) (f : OptionEl → OptionEl) :
    (modifyElem w i f).inputs = w.inputs := by
  unfold modifyElem; split <;> rfl

theorem modifyElem_focusedIndex (w : Widget) (i : Nat) (f : OptionEl → OptionEl) :
    (modifyElem w i f).focusedIndex = w.focusedIndex := by
  unfold modifyElem; split <;> rfl

theorem modifyElem_elems_length (w : Widget) (i : Nat) (f : OptionEl → OptionEl) :
    (modifyElem w i f).elems.length = w.elems.length := by
  unfold modifyElem; split
  · rfl
  · simp

theorem modifyElem_getElem_ne (w : Widget) (i : Nat) (f : OptionEl → OptionEl)
    (j : Nat) (h : j ≠ i) :
    (modifyElem w i f).elems[j]? = w.elems[j]? := by
  unfold modifyElem; split
  · rfl
  · simp [List.getElem?_set_ne (fun hh => h hh.symm)]

theorem modifyElem_getElem_self (w : Widget) (i : Nat) (f : OptionEl → OptionEl)
    (el : OptionEl) (h : w.elems[i]? = some el) :
    (modifyElem w i f).elems[i]? = some (f el) := by
  unfold modifyElem
  rw [h]
  have hlen : i < w.elems.length := by
    rcases List.getElem?_eq_some.mp h with ⟨hl, _⟩
    exact hl
  simp [List.getElem?_set_self hlen]

theorem modifyElem_getElem_map {α : Type} (w : Widget) (i : Nat)
    (f : OptionEl → OptionEl) (j : Nat) (g : OptionEl → α)
    (hf : ∀ e, g (f e) = g e) :
    ((modifyElem w i f).elems[j]?).map g = (w.elems[j]?).map g := by
  by_cases hji : j = i
  · subst hji
    cases h : w.elems[j]? with
    | none =>
      simp [modifyElem, h]
    | some el =>
      rw [modifyElem_getElem_self w j f el h]
      simp [h, hf]
  · rw [modifyElem_getElem_ne w i f j hji]

theorem clearSelection_selectedOptions (i : Nat) (w : Widget) :
    (clearSelection_ i w).selectedOptions = w.selectedOptions.erase i := by
  simp [clearSelection_, modifyElem_selectedOptions]

theorem clearSelection_isMultiple (i : Nat) (w : Widget) :
    (clearSelection_ i w).isMultiple = w.isMultiple := by
  simp [clearSelection_, modifyElem_isMultiple]

theorem clearSelection_isDisabled (i : Nat) (w : Widget) :
    (clearSelection_ i w).isDisabled = w.isDisabled := by
  simp [clearSelection_, modifyElem_isDisabled]

theorem clearSelection_kbSelectMode (i : Nat) (w : Widget) :
    (clearSelection_ i w).kbSelectMode = w.kbSelectMode := by
  simp [clearSelection_, modifyElem_kbSelectMode]

theorem clearSelection_name (i : Nat) (w : Widget) :
    (clearSelection_ i w).name = w.name := by
  simp [clearSelection_, modifyElem_name]

theorem clearSelection_formId (i : Nat) (w : Widget) :
    (clearSelection_ i w).formId = w.formId := by
  simp [clearSelection_, modifyElem_formId]

theorem clearSelection_options (i : Nat) (w : Widget) :
    (clearSelection_ i w).options = w.options := by
  simp [clearSelection_, modifyElem_options]

theorem clearSelection_inputs (i : Nat) (w : Widget) :
    (clearSelection_ i w).inputs = w.inputs := by
  simp [clearSelection_, modifyElem_inputs]

theorem clearSelection_focusedIndex (i : Nat) (w : Widget) :
    (clearSelection_ i w).focusedIndex = w.focusedIndex := by
  simp [clearSelection_, modifyElem_focusedIndex]

theorem clearSelection_elems_length (i : Nat) (w : Widget) :
    (clearSelection_ i w).elems.length = w.elems.length := by
  simp [clearSelection_, modifyElem_elems_length]

theorem clearSelection_getElem_ne (i : Nat) (w : Widget) (j : Nat) (h : j ≠ i) :
    (clearSelection_ i w).elems[j]? = w.elems[j]? := by
  simp only [clearSelection_]
  rw [modifyElem_getElem_ne _ _ _ _ h]

theorem clearSelection_getElem_map {α : Type} (i : Nat) (w : Widget) (j : Nat)
    (g : OptionEl → α)
    (hg : ∀ e, g { e with hasSelected := false, ariaSelected := some "false" } = g e) :
    ((clearSelection_ i w).elems[j]?).map g = (w.elems[j]?).map g := by
  simp only [clearSelection_]
  exact modifyElem_getElem_map w i _ j g hg

theorem clearSelection_deselected (i : Nat) (w : Widget) (h : i < w.elems.length) :
    ∃ e, (clearSelection_ i w).elems[i]? = some e ∧ Deselected e := by
  simp only [clearSelection_]
  rcases hel : w.elems[i]? with _ | el
  · have hsome := List.getElem?_eq_getElem h
    rw [hel] at hsome
    cases hsome
  · refine ⟨{ el with hasSelected := false, ariaSelected := some "false" }, ?_, rfl, rfl⟩
    exact modifyElem_getElem_self w i _ el hel

theorem clearSelection_pres_deselected (i : Nat) (w : Widget) (j : Nat) (e : OptionEl)
    (h : w.elems[j]? = some e) (hd : Deselected e) :
    ∃ e2, (clearSelection_ i w).elems[j]? = some e2 ∧ Deselected e2 := by
  by_cases hji : j = i
  · subst hji
    have hlen : j < w.elems.length := by
      rcases List.getElem?_eq_some.mp h with ⟨hl, _⟩
      exact hl
    exact clearSelection_deselected j w hlen
  · refine ⟨e, ?_, hd⟩
    rw [clearSelection_getElem_ne i w j hji, h]

theorem clearAllLoop_fields (fuel : Nat) :
    ∀ w : Widget,
      (clearAllLoop fuel w).isMultiple = w.isMultiple ∧
      (clearAllLoop fuel w).isDisabled = w.isDisabled ∧
      (clearAllLoop fuel w).kbSelectMode = w.kbSelectMode ∧
      (clearAllLoop fuel w).name = w.name ∧
      (clearAllLoop fuel w).formId = w.formId ∧
      (clearAllLoop fuel w).options = w.options ∧
      (clearAllLoop fuel w).inputs = w.inputs ∧
      (clearAllLoop fuel w).focusedIndex = w.focusedIndex ∧
      (clearAllLoop fuel w).elems.length = w.elems.length := by
  induction fuel with
  | zero =>
    intro w
    exact ⟨rfl, rfl, rfl, rfl, rfl, rfl, rfl, rfl, rfl⟩
  | succ fuel ih =>
    intro w
    rcases hl : w.selectedOptions.getLast? with _ | el
    · simp [clearAllLoop, hl]
    · simp only [clearAllLoop, hl]
      have h2 := ih (clearSelection_ el { w with selectedOptions := w.selectedOptions.dropLast })
      rw [clearSelection_isMultiple, clearSelection_isDisabled, clearSelection_kbSelectMode,
        clearSelection_name, clearSelection_formId, clearSelection_options,
        clearSelection_inputs, clearSelection_focusedIndex, clearSelection_elems_length] at h2
      exact h2

theorem clearAllLoop_sel_nil :
    ∀ (fuel : Nat) (w : Widget), w.selectedOptions.length ≤ fuel →
      (clearAllLoop fuel w).selectedOptions = [] := by
  intro fuel
  induction fuel with
  | zero =>
    intro w h
    have : w.selectedOptions = [] := List.length_eq_zero.mp (Nat.le_zero.mp h)
    simpa [clearAllLoop] using this
  | succ fuel ih =>
    intro w h
    rcases hl : w.selectedOptions.getLast? with _ | el
    · have : w.selectedOptions = [] := List.getLast?_eq_none_iff.mp hl
      simp only [clearAllLoop, hl]
      exact this
    · have hne : w.selectedOptions ≠ [] := by
        intro hnil
        rw [hnil] at hl
        cases hl
      have hlen1 : 1 ≤ w.selectedOptions.length := by
        cases hx : w.selectedOptions with
        | nil => exact absurd hx hne
        | cons a l => simp [hx]
      simp only [clearAllLoop, hl]
      apply ih
      rw [clearSelection_selectedOptions]
      show (w.selectedOptions.dropLast.erase el).length ≤ fuel
      have h1 : (w.selectedOptions.dropLast.erase el).length ≤ w.selectedOptions.dropLast.length :=
        List.length_erase_le _ _
      have h2 : w.selectedOptions.dropLast.length = w.selectedOptions.length - 1 :=
        List.length_dropLast _
      omega

theorem clearAllSelections_sel_nil (w : Widget) :
    (clearAllSelections_ w).selectedOptions = [] :=
  clearAllLoop_sel_nil _ _ (Nat.le_refl _)

theorem clearAllLoop_getElem_map {α : Type} (g : OptionEl → α)
    (hg : ∀ e, g { e with hasSelected := false, ariaSelected := some "false" } = g e) :
    ∀ (fuel : Nat) (w : Widget) (j : Nat),
      ((clearAllLoop fuel w).elems[j]?).map g = (w.elems[j]?).map g := by
  intro fuel
  induction fuel with
  | zero =>
    intro w j
    rfl
  | succ fuel ih =>
    intro w j
    rcases hl : w.selectedOptions.getLast? with _ | el
    · simp only [clearAllLoop, hl]
    · simp only [clearAllLoop, hl]
      rw [ih _ j]
      exact clearSelection_getElem_map el _ j g hg

theorem clearAllLoop_untouched :
    ∀ (fuel : Nat) (w : Widget) (j : Nat), j ∉ w.selectedOptions →
      (clearAllLoop fuel w).elems[j]? = w.elems[j]? := by
  intro fuel
  induction fuel with
  | zero =>
    intro w j _
    rfl
  | succ fuel ih =>
    intro w j hj
    rcases hl : w.selectedOptions.getLast? with _ | el
    · simp only [clearAllLoop, hl]
    · have hel : el ∈ w.selectedOptions := List.mem_of_getLast?_eq_some hl
      have hne : j ≠ el := fun h => hj (h ▸ hel)
      have hjd : j ∉ w.selectedOptions.dropLast := fun h =>
        hj ((List.dropLast_sublist w.selectedOptions).mem h)
      simp only [clearAllLoop, hl]
      rw [ih _ j, clearSelection_getElem_ne _ _ _ hne]
      intro hmem
      rw [clearSelection_selectedOptions] at hmem
      exact hjd (List.mem_of_mem_erase hmem)

theorem clearAllLoop_pres_deselected :
    ∀ (fuel : Nat) (w : Widget) (j : Nat) (e : OptionEl),
      w.elems[j]? = some e → Deselected e →
      ∃ e2, (clearAllLoop fuel w).elems[j]? = some e2 ∧ Deselected e2 := by
  intro fuel
  induction fuel with
  | zero =>
    intro w j e h hd
    exact ⟨e, h, hd⟩
  | succ fuel ih =>
    intro w j e h hd
    rcases hl : w.selectedOptions.getLast? with _ | el
    · simp only [clearAllLoop, hl]
      exact ⟨e, h, hd⟩
    · simp only [clearAllLoop, hl]
      rcases clearSelection_pres_deselected el
          { w with selectedOptions := w.selectedOptions.dropLast } j e h hd with ⟨e2, h2, hd2⟩
      exact ih _ j e2 h2 hd2

theorem clearAllLoop_clears :
    ∀ (fuel : Nat) (w : Widget), w.selectedOptions.length ≤ fuel →
      ∀ j ∈ w.selectedOptions, j < w.elems.length →
      ∃ e, (clearAllLoop fuel w).elems[j]? = some e ∧ Deselected e := by
  intro fuel
  induction fuel with
  | zero =>
    intro w h j hj _
    have : w.selectedOptions = [] := List.length_eq_zero.mp (Nat.le_zero.mp h)
    rw [this] at hj
    cases hj
  | succ fuel ih =>
    intro w h j hj hjlen
    rcases hl : w.selectedOptions.getLast? with _ | el
    · have : w.selectedOptions = [] := List.getLast?_eq_none_iff.mp hl
      rw [this] at hj
      cases hj
    · have hne : w.selectedOptions ≠ [] := by
        intro hnil
        rw [hnil] at hl
        cases hl
      have hlen1 : 1 ≤ w.selectedOptions.length := by
        cases hx : w.selectedOptions with
        | nil => exact absurd hx hne
        | cons a l => simp [hx]
      simp only [clearAllLoop, hl]
      by_cases hje : j = el
      · subst hje
        rcases clearSelection_deselected j
            { w with selectedOptions := w.selectedOptions.dropLast } hjlen with ⟨e, he, hde⟩
        exact clearAllLoop_pres_deselected fuel _ j e he hde
      · have hsplit : w.selectedOptions.dropLast ++ [w.selectedOptions.getLast hne] =
            w.selectedOptions := List.dropLast_append_getLast hne
        have hgl : w.selectedOptions.getLast hne = el := by
          have := List.getLast?_eq_getLast w.selectedOptions hne
          rw [hl] at this
          exact (Option.some_inj.mp this).symm
        have hjd : j ∈ w.selectedOptions.dropLast := by
          rw [← hsplit, hgl] at hj
          rcases List.mem_append.mp hj with h1 | h1
          · exact h1
          · rcases List.mem_singleton.mp h1 with rfl
            exact absurd rfl hje
        apply ih
        · rw [clearSelection_selectedOptions]
          show (w.selectedOptions.dropLast.erase el).length ≤ fuel
          have h1 : (w.selectedOptions.dropLast.erase el).length ≤
              w.selectedOptions.dropLast.length := List.length_erase_le _ _
          have h2 : w.selectedOptions.dropLast.length = w.selectedOptions.length - 1 :=
            List.length_dropLast _
          omega
        · rw [clearSelection_selectedOptions]
          exact (List.mem_erase_of_ne hje).mpr hjd
        · rw [clearSelection_elems_length]
          exact hjlen

theorem clearAllSelections_isMultiple (w : Widget) :
    (clearAllSelections_ w).isMultiple = w.isMultiple :=
  (clearAllLoop_fields _ w).1

theorem clearAllSelections_isDisabled (w : Widget) :
    (clearAllSelections_ w).isDisabled = w.isDisabled :=
  (clearAllLoop_fields _ w).2.1

theorem clearAllSelections_kbSelectMode (w : Widget) :
    (clearAllSelections_ w).kbSelectMode = w.kbSelectMode :=
  (clearAllLoop_fields _ w).2.2.1

theorem clearAllSelections_name (w : Widget) :
    (clearAllSelections_ w).name = w.name :=
  (clearAllLoop_fields _ w).2.2.2.1

theorem clearAllSelections_formId (w : Widget) :
    (clearAllSelections_ w).formId = w.formId :=
  (clearAllLoop_fields _ w).2.2.2.2.1

theorem clearAllSelections_options (w : Widget) :
    (clearAllSelections_ w).options = w.options :=
  (clearAllLoop_fields _ w).2.2.2.2.2.1

theorem clearAllSelections_inputs (w : Widget) :
    (clearAllSelections_ w).inputs = w.inputs :=
  (clearAllLoop_fields _ w).2.2.2.2.2.2.1

theorem clearAllSelections_focusedIndex (w : Widget) :
    (clearAllSelections_ w).focusedIndex = w.focusedIndex :=
  (clearAllLoop_fields _ w).2.2.2.2.2.2.2.1

theorem clearAllSelections_elems_length (w : Widget) :
    (clearAllSelections_ w).elems.length = w.elems.length :=
  (clearAllLoop_fields _ w).2.2.2.2.2.2.2.2

theorem setSelection_noop (i : Nat) (w : Widget)
    (h : w.selectedOptions.contains i = true) :
    setSelection_ i w = w := by
  unfold setSelection_
  rw [if_pos h]

theorem setSelection_isMultiple (i : Nat) (w : Widget) :
    (setSelection_ i w).isMultiple = w.isMultiple := by
  unfold setSelection_
  split
  · rfl
  · simp only [modifyElem_isMultiple]
    split
    · rfl
    · exact clearAllSelections_isMultiple w

theorem setSelection_isDisabled (i : Nat) (w : Widget) :
    (setSelection_ i w).isDisabled = w.isDisabled := by
  unfold setSelection_
  split
  · rfl
  · simp only [modifyElem_isDisabled]
    split
    · rfl
    · exact clearAllSelections_isDisabled w

theorem setSelection_kbSelectMode (i : Nat) (w : Widget) :
    (setSelection_ i w).kbSelectMode = w.kbSelectMode := by
  unfold setSelection_
  split
  · rfl
  · simp only [modifyElem_kbSelectMode]
    split
    · rfl
    · exact clearAllSelections_kbSelectMode w

theorem setSelection_name (i : Nat) (w : Widget) :
    (setSelection_ i w).name = w.name := by
  unfold setSelection_
  split
  · rfl
  · simp only [modifyElem_name]
    split
    · rfl
    · exact clearAllSelections_name w

theorem setSelection_formId (i : Nat) (w : Widget) :
    (setSelection_ i w).formId = w.formId := by
  unfold setSelection_
  split
  · rfl
  · simp only [modifyElem_formId]
    split
    · rfl
    · exact clearAllSelections_formId w

theorem setSelection_options (i : Nat) (w : Widget) :
    (setSelection_ i w).options = w.options := by
  unfold setSelection_
  split
  · rfl
  · simp only [modifyElem_options]
    split
    · rfl
    · exact clearAllSelections_options w

theorem setSelection_focusedIndex (i : Nat) (w : Widget) :
    (setSelection_ i w).focusedIndex = w.focusedIndex := by
  unfold setSelection_
  split
  · rfl
  · simp only [modifyElem_focusedIndex]
    split
    · rfl
    · exact clearAllSelections_focusedIndex w

theorem setSelection_elems_length (i : Nat) (w : Widget) :
    (setSelection_ i w).elems.length = w.elems.length := by
  unfold setSelection_
  split
  · rfl
  · simp only [modifyElem_elems_length]
    split
    · rfl
    · exact clearAllSelections_elems_length w

theorem setSelection_sel_single (i : Nat) (w : Widget) (hm : w.isMultiple = false)
    (h : w.selectedOptions.contains i = false) :
    (setSelection_ i w).selectedOptions = [i] := by
  unfold setSelection_
  rw [if_neg (by rw [h]; simp)]
  simp only [modifyElem_selectedOptions]
  rw [if_neg (by simp [hm]), clearAllSelections_sel_nil]
  rfl

theorem clearAllSelections_clears (w : Widget) (j : Nat)
    (hj : j ∈ w.selectedOptions) (hjlen : j < w.elems.length) :
    ∃ e, (clearAllSelections_ w).elems[j]? = some e ∧ Deselected e :=
  clearAllLoop_clears _ w (Nat.le_refl _) j hj hjlen

theorem clearAllSelections_untouched (w : Widget) (j : Nat)
    (hj : j ∉ w.selectedOptions) :
    (clearAllSelections_ w).elems[j]? = w.elems[j]? :=
  clearAllLoop_untouched _ w j hj

theorem clearAllSelections_getElem_map {α : Type} (g : OptionEl → α)
    (hg : ∀ e, g { e with hasSelected := false, ariaSelected := some "false" } = g e)
    (w : Widget) (j : Nat) :
    ((clearAllSelections_ w).elems[j]?).map g = (w.elems[j]?).map g :=
  clearAllLoop_getElem_map g hg _ w j

theorem setSelection_getElem_map {α : Type} (i : Nat) (w : Widget) (j : Nat)
    (g : OptionEl → α)
    (hset : ∀ e, g { e with hasSelected := true, ariaSelected := some "true" } = g e)
    (hclear : ∀ e, g { e with hasSelected := false, ariaSelected := some "false" } = g e) :
    ((setSelection_ i w).elems[j]?).map g = (w.elems[j]?).map g := by
  unfold setSelection_
  split
  · rfl
  · show ((modifyElem (if w.isMultiple = true then w else clearAllSelections_ w) i
        (fun el => { el with hasSelected := true, ariaSelected := some "true" })).elems[j]?).map g
      = (w.elems[j]?).map g
    rw [modifyElem_getElem_map _ _ _ _ g hset]
    split
    · rfl
    · exact clearAllSelections_getElem_map g hclear w j

theorem setSelection_marked_self (i : Nat) (w : Widget)
    (h : w.selectedOptions.contains i = false) (hlen : i < w.elems.length) :
    markedB (setSelection_ i w).elems i = true := by
  unfold setSelection_
  rw [if_neg (by rw [h]; simp)]
  show markedB (modifyElem (if w.isMultiple = true then w else clearAllSelections_ w) i
      (fun el => { el with hasSelected := true, ariaSelected := some "true" })).elems i = true
  set w1 := if w.isMultiple = true then w else clearAllSelections_ w with hw1
  have hlen1 : i < w1.elems.length := by
    rw [hw1]
    split
    · exact hlen
    · rw [clearAllSelections_elems_length]
      exact hlen
  rcases hel : w1.elems[i]? with _ | el
  · rw [List.getElem?_eq_getElem hlen1] at hel
    cases hel
  · unfold markedB
    rw [modifyElem_getElem_self w1 i _ el hel]

theorem setSelection_unmarks_old (i j : Nat) (w : Widget) (hm : w.isMultiple = false)
    (h : w.selectedOptions.contains i = false)
    (hj : j ∈ w.selectedOptions) (hjlen : j < w.elems.length) :
    markedB (setSelection_ i w).elems j = false := by
  have hji : j ≠ i := by
    intro e
    subst e
    have hc : w.selectedOptions.contains j = true := by
      simp [List.contains, List.elem_eq_mem, hj]
    rw [hc] at h
    cases h
  unfold setSelection_
  rw [if_neg (by rw [h]; simp)]
  show markedB (modifyElem (if w.isMultiple = true then w else clearAllSelections_ w) i
      (fun el => { el with hasSelected := true, ariaSelected := some "true" })).elems j = false
  rw [if_neg (by simp [hm])]
  rcases clearAllSelections_clears w j hj hjlen with ⟨e, he, hde⟩
  unfold markedB
  rw [modifyElem_getElem_ne _ _ _ _ hji, he]
  exact hde.1

theorem setSelection_untouched (i j : Nat) (w : Widget)
    (hji : j ≠ i) (hj : j ∉ w.selectedOptions) :
    (setSelection_ i w).elems[j]? = w.elems[j]? := by
  unfold setSelection_
  split
  · rfl
  · show (modifyElem (if w.isMultiple = true then w else clearAllSelections_ w) i
        (fun el => { el with hasSelected := true, ariaSelected := some "true" })).elems[j]?
      = w.elems[j]?
    rw [modifyElem_getElem_ne _ _ _ _ hji]
    split
    · rfl
    · exact clearAllSelections_untouched w j hj

theorem setInputs_inert (w : Widget)
    (h : (jsFalsyStr w.name || w.isDisabled) = true) :
    setInputs_ w = (w, []) := by
  unfold setInputs_
  rw [if_pos h]

theorem setInputs_fst_selectedOptions (w : Widget) :
    (setInputs_ w).1.selectedOptions = w.selectedOptions := by
  unfold setInputs_
  split <;> rfl

theorem setInputs_fst_elems (w : Widget) :
    (setInputs_ w).1.elems = w.elems := by
  unfold setInputs_
  split <;> rfl

theorem setInputs_fst_options (w : Widget) :
    (setInputs_ w).1.options = w.options := by
  unfold setInputs_
  split <;> rfl

theorem setInputs_fst_isMultiple (w : Widget) :
    (setInputs_ w).1.isMultiple = w.isMultiple := by
  unfold setInputs_
  split <;> rfl

theorem setInputs_fst_isDisabled (w : Widget) :
    (setInputs_ w).1.isDisabled = w.isDisabled := by
  unfold setInputs_
  split <;> rfl

theorem setInputs_fst_kbSelectMode (w : Widget) :
    (setInputs_ w).1.kbSelectMode = w.kbSelectMode := by
  unfold setInputs_
  split <;> rfl

theorem setInputs_fst_name (w : Widget) :
    (setInputs_ w).1.name = w.name := by
  unfold setInputs_
  split <;> rfl

theorem setInputs_fst_formId (w : Widget) :
    (setInputs_ w).1.formId = w.formId := by
  unfold setInputs_
  split <;> rfl

theorem setInputs_fst_focusedIndex (w : Widget) :
    (setInputs_ w).1.focusedIndex = w.focusedIndex := by
  unfold setInputs_
  split <;> rfl

theorem inputsFilterMap_eq (elems : List OptionEl) (n : String) (fid : Option String) :
    ∀ l : List Nat, (∀ i ∈ l, i < elems.length) →
      l.filterMap (fun i =>
        match elems[i]? with
        | Option.none => Option.none
        | some el =>
          if el.hasDisabled then Option.none else some (mkHiddenInput n fid el)) =
      (l.filter (fun i => !(elems.getD i default).hasDisabled)).map
        (fun i => mkHiddenInput n fid (elems.getD i default)) := by
  intro l
  induction l with
  | nil => intro _; rfl
  | cons a t ih =>
    intro hv
    have ha : a < elems.length := hv a (by simp)
    have hth : ∀ i ∈ t, i < elems.length := fun i hi => hv i (by simp [hi])
    have hget : elems[a]? = some (elems.getD a default) := by
      rw [List.getD_eq_getElem?_getD, List.getElem?_eq_getElem ha]
      rfl
    rw [List.filterMap_cons, List.filter_cons, hget]
    cases hd : (elems.getD a default).hasDisabled with
    | true =>
      rw [List.getD_eq_getElem?_getD] at hd
      simp [hd, ih hth]
    | false =>
      rw [List.getD_eq_getElem?_getD] at hd
      simp [hd, ih hth]

theorem setInputs_active (w : Widget)
    (hna : (jsFalsyStr w.name || w.isDisabled) = false)
    (hv : ∀ i ∈ w.selectedOptions, i < w.elems.length) :
    (setInputs_ w).1.inputs =
      (w.selectedOptions.filter (fun i => !(w.elems.getD i default).hasDisabled)).map
        (fun i => mkHiddenInput (w.name.getD "") w.formId (w.elems.getD i default)) ∧
    (setInputs_ w).2 =
      (w.selectedOptions.filter (fun i => !(w.elems.getD i default).hasDisabled)).map
        (fun i => (w.elems.getD i default).optionValue) := by
  unfold setInputs_
  rw [if_neg (by rw [hna]; simp)]
  have hfm := inputsFilterMap_eq w.elems (w.name.getD "") w.formId w.selectedOptions hv
  constructor
  · simp only [hfm]
  · simp only [hfm, List.map_map]
    rfl

theorem foldlModify_fields (f : OptionEl → OptionEl) :
    ∀ (l : List Nat) (w : Widget),
      ((l.foldl (fun acc i => modifyElem acc i f) w).isMultiple = w.isMultiple ∧
       (l.foldl (fun acc i => modifyElem acc i f) w).isDisabled = w.isDisabled ∧
       (l.foldl (fun acc i => modifyElem acc i f) w).kbSelectMode = w.kbSelectMode ∧
       (l.foldl (fun acc i => modifyElem acc i f) w).name = w.name ∧
       (l.foldl (fun acc i => modifyElem acc i f) w).formId = w.formId ∧
       (l.foldl (fun acc i => modifyElem acc i f) w).options = w.options ∧
       (l.foldl (fun acc i => modifyElem acc i f) w).selectedOptions = w.selectedOptions ∧
       (l.foldl (fun acc i => modifyElem acc i f) w).inputs = w.inputs ∧
       (l.foldl (fun acc i => modifyElem acc i f) w).elems.length = w.elems.length) := by
  intro l
  induction l with
  | nil =>
    intro w
    exact ⟨rfl, rfl, rfl, rfl, rfl, rfl, rfl, rfl, rfl⟩
  | cons a t ih =>
    intro w
    have h2 := ih (modifyElem w a f)
    rw [List.foldl_cons] at *
    rw [modifyElem_isMultiple, modifyElem_isDisabled, modifyElem_kbSelectMode,
      modifyElem_name, modifyElem_formId, modifyElem_options,
      modifyElem_selectedOptions, modifyElem_inputs, modifyElem_elems_length] at h2
    exact h2

theorem foldlModify_getElem_map {α : Type} (g : OptionEl → α) (f : OptionEl → OptionEl)
    (hf : ∀ e, g (f e) = g e) :
    ∀ (l : List Nat) (w : Widget) (j : Nat),
      ((l.foldl (fun acc i => modifyElem acc i f) w).elems[j]?).map g =
        (w.elems[j]?).map g := by
  intro l
  induction l with
  | nil =>
    intro w j
    rfl
  | cons a t ih =>
    intro w j
    rw [List.foldl_cons, ih (modifyElem w a f) j, modifyElem_getElem_map w a f j g hf]

theorem updateFocus_selectedOptions (w : Widget) :
    (updateFocus_ w).selectedOptions = w.selectedOptions := by
  unfold updateFocus_
  split
  · rfl
  · dsimp only
    split
    · exact (foldlModify_fields _ w.options w).2.2.2.2.2.2.1
    · simp only [modifyElem_selectedOptions]
      exact (foldlModify_fields _ w.options w).2.2.2.2.2.2.1

theorem updateFocus_inputs (w : Widget) :
    (updateFocus_ w).inputs = w.inputs := by
  unfold updateFocus_
  split
  · rfl
  · dsimp only
    split
    · exact (foldlModify_fields _ w.options w).2.2.2.2.2.2.2.1
    · simp only [modifyElem_inputs]
      exact (foldlModify_fields _ w.options w).2.2.2.2.2.2.2.1

theorem updateFocus_isMultiple (w : Widget) :
    (updateFocus_ w).isMultiple = w.isMultiple := by
  unfold updateFocus_
  split
  · rfl
  · dsimp only
    split
    · exact (foldlModify_fields _ w.options w).1
    · simp only [modifyElem_isMultiple]
      exact (foldlModify_fields _ w.options w).1

theorem updateFocus_isDisabled (w : Widget) :
    (updateFocus_ w).isDisabled = w.isDisabled := by
  unfold updateFocus_
  split
  · rfl
  · dsimp only
    split
    · exact (foldlModify_fields _ w.options w).2.1
    · simp only [modifyElem_isDisabled]
      exact (foldlModify_fields _ w.options w).2.1

theorem updateFocus_kbSelectMode (w : Widget) :
    (updateFocus_ w).kbSelectMode = w.kbSelectMode := by
  unfold updateFocus_
  split
  · rfl
  · dsimp only
    split
    · exact (foldlModify_fields _ w.options w).2.2.1
    · simp only [modifyElem_kbSelectMode]
      exact (foldlModify_fields _ w.options w).2.2.1

theorem updateFocus_name (w : Widget) :
    (updateFocus_ w).name = w.name := by
  unfold updateFocus_
  split
  · rfl
  · dsimp only
    split
    · exact (foldlModify_fields _ w.options w).2.2.2.1
    · simp only [modifyElem_name]
      exact (foldlModify_fields _ w.options w).2.2.2.1

theorem updateFocus_formId (w : Widget) :
    (updateFocus_ w).formId = w.formId := by
  unfold updateFocus_
  split
  · rfl
  · dsimp only
    split
    · exact (foldlModify_fields _ w.options w).2.2.2.2.1
    · simp only [modifyElem_formId]
      exact (foldlModify_fields _ w.options w).2.2.2.2.1

theorem updateFocus_options (w : Widget) :
    (updateFocus_ w).options = w.options := by
  unfold updateFocus_
  split
  · rfl
  · dsimp only
    split
    · exact (foldlModify_fields _ w.options w).2.2.2.2.2.1
    · simp only [modifyElem_options]
      exact (foldlModify_fields _ w.options w).2.2.2.2.2.1

theorem updateFocus_elems_length (w : Widget) :
    (updateFocus_ w).elems.length = w.elems.length := by
  unfold updateFocus_
  split
  · rfl
  · dsimp only
    split
    · exact (foldlModify_fields _ w.options w).2.2.2.2.2.2.2.2
    · simp only [modifyElem_elems_length]
      exact (foldlModify_fields _ w.options w).2.2.2.2.2.2.2.2

theorem updateFocus_getElem_map {α : Type} (g : OptionEl → α)
    (h1 : ∀ e, g { e with tabIndex := -1 } = g e)
    (h0 : ∀ e, g { e with tabIndex := 0 } = g e)
    (w : Widget) (j : Nat) :
    ((updateFocus_ w).elems[j]?).map g = (w.elems[j]?).map g := by
  unfold updateFocus_
  split
  · rfl
  · dsimp only
    split
    · exact foldlModify_getElem_map g _ h1 w.options w j
    · rw [modifyElem_getElem_map _ _ _ _ g h0]
      exact foldlModify_getElem_map g _ h1 w.options w j

/-! Claim theorems. -/

theorem foldlSelect_single_bound :
    ∀ (sel : List Nat) (w : Widget),
      w.isMultiple = false → w.selectedOptions.length ≤ 1 →
      (sel.foldl (fun acc i => setSelection_ i acc) w).isMultiple = false ∧
      (sel.foldl (fun acc i => setSelection_ i acc) w).selectedOptions.length ≤ 1 := by
  intro sel
  induction sel with
  | nil =>
    intro w hm h1
    exact ⟨hm, h1⟩
  | cons a t ih =>
    intro w hm h1
    rw [List.foldl_cons]
    apply ih
    · rw [setSelection_isMultiple]
      exact hm
    · by_cases hc : w.selectedOptions.contains a = true
      · rw [setSelection_noop a w hc]
        exact h1
      · have hc2 : w.selectedOptions.contains a = false := by
          cases hx : w.selectedOptions.contains a
          · rfl
          · exact absurd hx hc
        rw [setSelection_sel_single a w hm hc2]
        simp

/-- C1: on a single-select widget whose selection already satisfies the
invariant, any sequence of `setSelection_` calls keeps
`selectedOptions.length` at most 1 after every call (every prefix of the
call sequence). -/
theorem single_select_exclusive (w : Widget) (sel : List Nat) (k : Nat)
    (hm : w.isMultiple = false) (h1 : w.selectedOptions.length ≤ 1) :
    ((sel.take k).foldl (fun acc i => setSelection_ i acc) w).selectedOptions.length ≤ 1 :=
  (foldlSelect_single_bound (sel.take k) w hm h1).2

/-- Witness for C1: three selections on an initialized single-select
widget, checked after the two-call prefix. -/
theorem single_select_exclusive_witness :
    threeNavWidget.isMultiple = false ∧
    threeNavWidget.selectedOptions.length ≤ 1 ∧
    (([0, 2, 1].take 2).foldl (fun acc i => setSelection_ i acc)
      threeNavWidget).selectedOptions.length ≤ 1 :=
  ⟨by decide, by decide,
    single_select_exclusive threeNavWidget [0, 2, 1] 2 (by decide) (by decide)⟩

/-- C7: `setSelection_` on an element already in `selectedOptions_` is a
no-op, so the selection list and the emitted form values are unchanged. -/
theorem select_idempotent (w : Widget) (i : Nat)
    (h : w.selectedOptions.contains i = true) :
    setSelection_ i w = w ∧
    (setInputs_ (setSelection_ i w)).2 = (setInputs_ w).2 := by
  have h1 := setSelection_noop i w h
  exact ⟨h1, by rw [h1]⟩

/-- Witness for C7: reselecting the selected option of an initialized
single-select widget. -/
theorem select_idempotent_witness :
    oneSelWidget.selectedOptions.contains 0 = true ∧
    setSelection_ 0 oneSelWidget = oneSelWidget ∧
    (setInputs_ (setSelection_ 0 oneSelWidget)).2 = (setInputs_ oneSelWidget).2 :=
  ⟨by decide, (select_idempotent oneSelWidget 0 (by decide)).1,
    (select_idempotent oneSelWidget 0 (by decide)).2⟩

/-- C8: `clearSelection_` on an element that is not in `selectedOptions_`
and already carries the state the method writes (no `selected`
attribute, `aria-selected` false, the widget invariant for unselected
options) changes nothing at all. -/
theorem deselect_nonmember_noop (w : Widget) (i : Nat) (el : OptionEl)
    (hmem : i ∉ w.selectedOptions)
    (hel : w.elems[i]? = some el)
    (hsel : el.hasSelected = false)
    (haria : el.ariaSelected = some "false") :
    clearSelection_ i w = w := by
  have hlen : i < w.elems.length := by
    rcases List.getElem?_eq_some.mp hel with ⟨hl, _⟩
    exact hl
  have hkeep : modifyElem w i
      (fun e => { e with hasSelected := false, ariaSelected := some "false" }) = w := by
    unfold modifyElem
    rw [hel]
    dsimp only
    have hfe : ({ el with hasSelected := false, ariaSelected := some "false" } : OptionEl)
        = el := by
      cases el
      simp_all
    have hset : w.elems.set i ({ el with hasSelected := false, ariaSelected := some "false" })
        = w.elems := by
      rw [hfe]
      apply List.ext_getElem?
      intro n
      by_cases hn : n = i
      · subst hn
        rw [List.getElem?_set_self hlen, hel]
      · exact List.getElem?_set_ne (fun hh => hn hh.symm)
    rw [hset]
  unfold clearSelection_
  rw [hkeep]
  dsimp only
  rw [List.erase_of_not_mem hmem]

/-- Witness for C8: deselecting the unselected second option of an
initialized single-select widget. -/
theorem deselect_nonmember_noop_witness :
    (1 ∉ oneSelWidget.selectedOptions) ∧
    oneSelWidget.elems[1]? = some { mkEl "y" false false with ariaSelected := some "false" } ∧
    clearSelection_ 1 oneSelWidget = oneSelWidget :=
  ⟨by decide, by decide,
    deselect_nonmember_noop oneSelWidget 1
      { mkEl "y" false false with ariaSelected := some "false" }
      (by decide) (by decide) (by decide) (by decide)⟩

/-- C5: `setInputs_` returns the empty list and leaves the widget
unchanged when no form-field name is configured or the widget is
disabled; otherwise it creates exactly one hidden input per selected
non-disabled option in `selectedOptions_` order, returns their option
values in the same order, and the number of inputs equals the number of
selected options without the `disabled` attribute. -/
theorem form_sync_spec (w : Widget)
    (hv : ∀ i ∈ w.selectedOptions, i < w.elems.length) :
    ((jsFalsyStr w.name || w.isDisabled) = true → setInputs_ w = (w, [])) ∧
    ((jsFalsyStr w.name || w.isDisabled) = false →
      (setInputs_ w).1.inputs =
        (w.selectedOptions.filter (fun i => !(w.elems.getD i default).hasDisabled)).map
          (fun i => mkHiddenInput (w.name.getD "") w.formId (w.elems.getD i default)) ∧
      (setInputs_ w).2 =
        (w.selectedOptions.filter (fun i => !(w.elems.getD i default).hasDisabled)).map
          (fun i => (w.elems.getD i default).optionValue) ∧
      (setInputs_ w).1.inputs.length =
        (w.selectedOptions.filter (fun i => !(w.elems.getD i default).hasDisabled)).length) :=
  ⟨fun h => setInputs_inert w h,
   fun h => ⟨(setInputs_active w h hv).1, (setInputs_active w h hv).2,
     by rw [(setInputs_active w h hv).1, List.length_map]⟩⟩

/-- Witness for C5: a multi-select widget with a form name and two
selected options, the second disabled; exactly one input is created and
only the first value is emitted. -/
theorem form_sync_spec_witness :
    (∀ i ∈ formSyncWidget.selectedOptions, i < formSyncWidget.elems.length) ∧
    (((jsFalsyStr formSyncWidget.name || formSyncWidget.isDisabled) = true →
        setInputs_ formSyncWidget = (formSyncWidget, [])) ∧
      ((jsFalsyStr formSyncWidget.name || formSyncWidget.isDisabled) = false →
        (setInputs_ formSyncWidget).1.inputs =
          (formSyncWidget.selectedOptions.filter
            (fun i => !(formSyncWidget.elems.getD i default).hasDisabled)).map
            (fun i => mkHiddenInput (formSyncWidget.name.getD "") formSyncWidget.formId
              (formSyncWidget.elems.getD i default)) ∧
        (setInputs_ formSyncWidget).2 =
          (formSyncWidget.selectedOptions.filter
            (fun i => !(formSyncWidget.elems.getD i default).hasDisabled)).map
            (fun i => (formSyncWidget.elems.getD i default).optionValue) ∧
        (setInputs_ formSyncWidget).1.inputs.length =
          (formSyncWidget.selectedOptions.filter
            (fun i => !(formSyncWidget.elems.getD i default).hasDisabled)).length)) ∧
    (setInputs_ formSyncWidget).2 = ["a"] ∧
    (setInputs_ formSyncWidget).1.inputs.length = 1 :=
  ⟨by decide, form_sync_spec formSyncWidget (by decide), by decide, by decide⟩

/-- C6: in single-select mode, `onOptionPicked_` on an element carrying
the `selected` attribute changes nothing and dispatches no event: the
widget state (selection, inputs, focus) is returned untouched. -/
theorem single_select_pick_selected_noop (w : Widget) (i : Nat) (el : OptionEl)
    (hm : w.isMultiple = false)
    (hel : w.elems[i]? = some el)
    (hsel : el.hasSelected = true) :
    onOptionPicked_ i w = (w, Option.none) := by
  unfold onOptionPicked_
  rw [hel]
  dsimp only
  cases hd : el.hasDisabled with
  | true => simp
  | false =>
    rw [if_neg (by simp), if_pos hsel, if_neg (by rw [hm]; simp)]

/-- Witness for C6: clicking the already selected first option of an
initialized single-select widget. -/
theorem single_select_pick_selected_noop_witness :
    oneSelWidget.isMultiple = false ∧
    oneSelWidget.elems[0]? = some { mkEl "x" true false with ariaSelected := some "true" } ∧
    onOptionPicked_ 0 oneSelWidget = (oneSelWidget, Option.none) :=
  ⟨by decide, by decide,
    single_select_pick_selected_noop oneSelWidget 0
      { mkEl "x" true false with ariaSelected := some "true" }
      (by decide) (by decide) (by decide)⟩

/-- C9: when the host has no truthy `name` attribute or is disabled, a
selection-changing `onOptionPicked_` still dispatches the `select`
event, but its `selectedOptions` payload is the empty list, because
`setInputs_` returns the empty list (a truthy empty array) before
looking at the selection. -/
theorem pick_inert_empty_payload (w : Widget) (i : Nat) (el : OptionEl)
    (hel : w.elems[i]? = some el)
    (hdis : el.hasDisabled = false)
    (halter : el.hasSelected = false ∨ w.isMultiple = true)
    (hinert : (jsFalsyStr w.name || w.isDisabled) = true) :
    (onOptionPicked_ i w).2 =
      some { targetOption := el.optionValue, selectedOptions := [] } := by
  unfold onOptionPicked_
  rw [hel]
  dsimp only
  cases hd2 : el.hasDisabled with
  | true =>
    rw [hd2] at hdis
    cases hdis
  | false =>
    rw [if_neg (by simp)]
    cases hs : el.hasSelected with
    | false =>
      rw [if_neg (by simp)]
      have hin : (jsFalsyStr (setSelection_ i w).name ||
          (setSelection_ i w).isDisabled) = true := by
        rw [setSelection_name, setSelection_isDisabled]
        exact hinert
      rw [setInputs_inert _ hin]
      dsimp only
      have hval : ((updateFocus_ (setSelection_ i w)).elems[i]?).map OptionEl.optionValue
          = some el.optionValue := by
        rw [updateFocus_getElem_map OptionEl.optionValue (fun e => rfl) (fun e => rfl) _ i,
          setSelection_getElem_map i w i OptionEl.optionValue (fun e => rfl) (fun e => rfl),
          hel]
        rfl
      rcases hx : (updateFocus_ (setSelection_ i w)).elems[i]? with _ | el2
      · rw [hx] at hval
        cases hval
      · rw [hx] at hval
        have hv2 : el2.optionValue = el.optionValue := by
          simpa using hval
        simp [hv2]
    | true =>
      have hmul : w.isMultiple = true := by
        rcases halter with h | h
        · rw [hs] at h
          cases h
        · exact h
      rw [if_pos rfl, if_pos hmul]
      have hin : (jsFalsyStr (clearSelection_ i w).name ||
          (clearSelection_ i w).isDisabled) = true := by
        rw [clearSelection_name, clearSelection_isDisabled]
        exact hinert
      rw [setInputs_inert _ hin]
      dsimp only
      have hval : ((updateFocus_ (clearSelection_ i w)).elems[i]?).map OptionEl.optionValue
          = some el.optionValue := by
        rw [updateFocus_getElem_map OptionEl.optionValue (fun e => rfl) (fun e => rfl) _ i,
          clearSelection_getElem_map i w i OptionEl.optionValue (fun e => rfl),
          hel]
        rfl
      rcases hx : (updateFocus_ (clearSelection_ i w)).elems[i]? with _ | el2
      · rw [hx] at hval
        cases hval
      · rw [hx] at hval
        have hv2 : el2.optionValue = el.optionValue := by
          simpa using hval
        simp [hv2]

/-- Witness for C9: picking the unselected first option of a widget
without a `name` attribute fires the event with an empty payload. -/
theorem pick_inert_empty_payload_witness :
    noNameWidget.elems[0]? = some (mkEl "x" false false) ∧
    (jsFalsyStr noNameWidget.name || noNameWidget.isDisabled) = true ∧
    (onOptionPicked_ 0 noNameWidget).2 =
      some { targetOption := "x", selectedOptions := [] } :=
  ⟨by decide, by decide,
    pick_inert_empty_payload noNameWidget 0 (mkEl "x" false false)
      (by decide) (by decide) (Or.inl (by decide)) (by decide)⟩

theorem tmod_neg_one_ofNat (k : Nat) :
    Int.tmod (-1) (k : Int) = -((1 % k : Nat) : Int) := rfl

theorem navStep_spec (n fi d : Int) (hn : 0 < n) (h0 : 0 ≤ fi) (h1 : fi < n)
    (hd : d = 1 ∨ d = -1) :
    navStep n fi d = (fi + d) % n ∧ 0 ≤ navStep n fi d ∧ navStep n fi d < n := by
  have hmain : navStep n fi d = (fi + d) % n := by
    rcases hd with rfl | rfl
    · unfold navStep
      rw [Int.tmod_eq_emod (by omega) (by omega)]
      rw [if_neg (by have := Int.emod_nonneg (fi + 1) (by omega : n ≠ 0); omega)]
    · by_cases hfi : 1 ≤ fi
      · unfold navStep
        rw [Int.tmod_eq_emod (by omega) (by omega)]
        rw [if_neg (by have := Int.emod_nonneg (fi + -1) (by omega : n ≠ 0); omega)]
      · have hfi0 : fi = 0 := by omega
        subst hfi0
        unfold navStep
        have ha : (0 : Int) + -1 = -1 := by norm_num
        rw [ha]
        have hk : n = ((n.toNat : Nat) : Int) := (Int.toNat_of_nonneg (by omega)).symm
        rw [hk, tmod_neg_one_ofNat n.toNat]
        rcases Nat.lt_or_ge n.toNat 2 with hk2 | hk2
        · have hone : n.toNat = 1 := by omega
          rw [hone]
          decide
        · have h1k : 1 % n.toNat = 1 := Nat.mod_eq_of_lt (by omega)
          rw [h1k]
          rw [if_pos (by norm_num)]
          have h2 : ((-1 : Int)) % ((n.toNat : Nat) : Int) =
              (-1 + ((n.toNat : Nat) : Int)) % ((n.toNat : Nat) : Int) := by
            conv_lhs => rw [← Int.add_mul_emod_self_left (-1) ((n.toNat : Nat) : Int) 1]
            norm_num
          rw [h2, Int.emod_eq_of_lt (by omega) (by omega)]
          norm_num
  refine ⟨hmain, ?_, ?_⟩
  · rw [hmain]
    exact Int.emod_nonneg _ (by omega)
  · rw [hmain]
    exact Int.emod_lt_of_pos _ hn

theorem keyDir_pm (isLtr : Bool) (k : Key) (hd0 : keyDir isLtr k ≠ 0) :
    keyDir isLtr k = 1 ∨ keyDir isLtr k = -1 := by
  cases k <;> cases isLtr <;> simp_all [keyDir]

theorem navIter_focus_step (w : Widget) (isLtr : Bool) (k : Key)
    (hd0 : keyDir isLtr k ≠ 0)
    (hkb : w.kbSelectMode = KbSelectMode.focus)
    (h0 : 0 ≤ w.focusedIndex) (h1 : w.focusedIndex < (w.options.length : Int)) :
    (navIter isLtr k w).focusedIndex =
      navStep (w.options.length : Int) w.focusedIndex (keyDir isLtr k) ∧
    (navIter isLtr k w).options = w.options ∧
    (navIter isLtr k w).kbSelectMode = w.kbSelectMode ∧
    keyDownHandler_ isLtr k w = Except.ok (navIter isLtr k w, Option.none) := by
  have hnpos : (0 : Int) < (w.options.length : Int) := by omega
  obtain ⟨hns_eq, hns0, hns1⟩ :=
    navStep_spec (w.options.length : Int) w.focusedIndex (keyDir isLtr k) hnpos h0 h1
      (keyDir_pm isLtr k hd0)
  have hlen : w.focusedIndex.toNat < w.options.length := by omega
  have hlen2 : (navStep (w.options.length : Int) w.focusedIndex (keyDir isLtr k)).toNat
      < w.options.length := by omega
  have he1 : elemAtInt w.options w.focusedIndex =
      some (w.options.get ⟨w.focusedIndex.toNat, hlen⟩) := by
    unfold elemAtInt
    rw [if_pos h0, List.getElem?_eq_getElem hlen]
    rfl
  have he2 : elemAtInt w.options
      (navStep (w.options.length : Int) w.focusedIndex (keyDir isLtr k)) =
      some (w.options.get
        ⟨(navStep (w.options.length : Int) w.focusedIndex (keyDir isLtr k)).toNat, hlen2⟩) := by
    unfold elemAtInt
    rw [if_pos hns0, List.getElem?_eq_getElem hlen2]
    rfl
  have heq : keyDownHandler_ isLtr k w = Except.ok
      (modifyElem
        { modifyElem w (w.options.get ⟨w.focusedIndex.toNat, hlen⟩)
            (fun el => { el with tabIndex := -1 }) with
          focusedIndex := navStep (w.options.length : Int) w.focusedIndex (keyDir isLtr k) }
        (w.options.get
          ⟨(navStep (w.options.length : Int) w.focusedIndex (keyDir isLtr k)).toNat, hlen2⟩)
        (fun el => { el with tabIndex := 0 }),
      Option.none) := by
    unfold keyDownHandler_
    rw [if_neg hd0, he1]
    dsimp only
    rw [modifyElem_options, modifyElem_focusedIndex, he2]
    dsimp only
    rw [if_neg ?hc]
    case hc =>
      rw [modifyElem_kbSelectMode]
      dsimp only
      rw [modifyElem_kbSelectMode, hkb]
      decide
  have hnav : navIter isLtr k w =
      modifyElem
        { modifyElem w (w.options.get ⟨w.focusedIndex.toNat, hlen⟩)
            (fun el => { el with tabIndex := -1 }) with
          focusedIndex := navStep (w.options.length : Int) w.focusedIndex (keyDir isLtr k) }
        (w.options.get
          ⟨(navStep (w.options.length : Int) w.focusedIndex (keyDir isLtr k)).toNat, hlen2⟩)
        (fun el => { el with tabIndex := 0 }) := by
    unfold navIter
    rw [heq]
  refine ⟨?_, ?_, ?_, ?_⟩
  · rw [hnav, modifyElem_focusedIndex]
  · rw [hnav, modifyElem_options]
    dsimp only
    rw [modifyElem_options]
  · rw [hnav, modifyElem_kbSelectMode]
    dsimp only
    rw [modifyElem_kbSelectMode]
  · rw [heq, hnav]

theorem navIter_pow_focus (isLtr : Bool) (k : Key) (hd0 : keyDir isLtr k ≠ 0) :
    ∀ (m : Nat) (w : Widget),
      w.kbSelectMode = KbSelectMode.focus →
      0 ≤ w.focusedIndex → w.focusedIndex < (w.options.length : Int) →
      (((navIter isLtr k)^[m] w).focusedIndex =
        (w.focusedIndex + (m : Int) * keyDir isLtr k) % (w.options.length : Int)) ∧
      ((navIter isLtr k)^[m] w).options = w.options ∧
      ((navIter isLtr k)^[m] w).kbSelectMode = w.kbSelectMode := by
  intro m
  induction m with
  | zero =>
    intro w hkb h0 h1
    refine ⟨?_, rfl, rfl⟩
    have hz : w.focusedIndex + ((0 : Nat) : Int) * keyDir isLtr k = w.focusedIndex := by
      push_cast
      ring
    rw [Function.iterate_zero_apply, hz, Int.emod_eq_of_lt h0 h1]
  | succ m ih =>
    intro w hkb h0 h1
    obtain ⟨hfi, hopts, hkb2, _⟩ := navIter_focus_step w isLtr k hd0 hkb h0 h1
    have hnpos : (0 : Int) < (w.options.length : Int) := by omega
    obtain ⟨hns_eq, hns0, hns1⟩ :=
      navStep_spec (w.options.length : Int) w.focusedIndex (keyDir isLtr k) hnpos h0 h1
        (keyDir_pm isLtr k hd0)
    have h0x : 0 ≤ (navIter isLtr k w).focusedIndex := by
      rw [hfi]
      exact hns0
    have h1x : (navIter isLtr k w).focusedIndex <
        ((navIter isLtr k w).options.length : Int) := by
      rw [hfi, hopts]
      exact hns1
    have hkbx : (navIter isLtr k w).kbSelectMode = KbSelectMode.focus := by
      rw [hkb2, hkb]
    obtain ⟨ihfi, ihopts, ihkb⟩ := ih (navIter isLtr k w) hkbx h0x h1x
    rw [Function.iterate_succ_apply]
    refine ⟨?_, by rw [ihopts, hopts], by rw [ihkb, hkb2]⟩
    rw [ihfi, hfi, hopts, hns_eq, Int.emod_add_emod]
    congr 1
    push_cast
    ring

/-- C4: on a keyboard-focus widget with `n` options (`n` at least 1) and
a focused index in range, `n` keydown steps in the next direction
return `focusedIndex` to its starting value, and likewise for the
previous direction; each single step computes the truncating remainder
of `focusedIndex + dir` by `n`, normalized into the range `[0, n)`,
which agrees with the euclidean remainder. -/
theorem wraparound_navigation (w : Widget) (n : Nat)
    (hn : w.options.length = n) (hn1 : 1 ≤ n)
    (hkb : w.kbSelectMode = KbSelectMode.focus)
    (h0 : 0 ≤ w.focusedIndex) (h1 : w.focusedIndex < (n : Int)) :
    ((navIter true Key.downArrow)^[n] w).focusedIndex = w.focusedIndex ∧
    ((navIter true Key.upArrow)^[n] w).focusedIndex = w.focusedIndex ∧
    (∀ fi d : Int, 0 ≤ fi → fi < (n : Int) → (d = 1 ∨ d = -1) →
      navStep (n : Int) fi d = (fi + d) % (n : Int) ∧
      0 ≤ navStep (n : Int) fi d ∧ navStep (n : Int) fi d < (n : Int)) := by
  subst hn
  refine ⟨?_, ?_, ?_⟩
  · obtain ⟨hfi, _, _⟩ := navIter_pow_focus true Key.downArrow (by decide)
      w.options.length w hkb h0 h1
    rw [hfi, show keyDir true Key.downArrow = 1 from rfl,
      Int.add_mul_emod_self_left, Int.emod_eq_of_lt h0 h1]
  · obtain ⟨hfi, _, _⟩ := navIter_pow_focus true Key.upArrow (by decide)
      w.options.length w hkb h0 h1
    rw [hfi, show keyDir true Key.upArrow = -1 from rfl,
      Int.add_mul_emod_self_left, Int.emod_eq_of_lt h0 h1]
  · intro fi d hfi0 hfi1 hd
    exact navStep_spec (w.options.length : Int) fi d (by omega) hfi0 hfi1 hd

/-- Witness for C4: three next steps and three previous steps on an
initialized three-option keyboard-focus widget return focus to the
starting index 1. -/
theorem wraparound_navigation_witness :
    threeNavWidget.options.length = 3 ∧
    threeNavWidget.kbSelectMode = KbSelectMode.focus ∧
    ((navIter true Key.downArrow)^[3] threeNavWidget).focusedIndex =
      threeNavWidget.focusedIndex ∧
    ((navIter true Key.upArrow)^[3] threeNavWidget).focusedIndex =
      threeNavWidget.focusedIndex :=
  ⟨by decide, by decide,
    (wraparound_navigation threeNavWidget 3 (by decide) (by decide) (by decide)
      (by decide) (by decide)).1,
    (wraparound_navigation threeNavWidget 3 (by decide) (by decide) (by decide)
      (by decide) (by decide)).2.1⟩

/-- Counterexample for C2: on the initialized two-option multi-select
widget with a form-field name, pushing a null external selection
empties `selectedOptions` but leaves the two previously created hidden
inputs in place, so the widget does not hold zero hidden inputs. -/
theorem external_clear_cex :
    (selectedAttributeMutated_ SelVal.nullV (init_ twoSelMulti)).selectedOptions.length = 0 ∧
    (selectedAttributeMutated_ SelVal.nullV (init_ twoSelMulti)).inputs.length = 2 := by
  decide

/-- C2 (amended): pushing a null external selection runs Deselect on
every currently selected option, leaving `selectedOptions` empty and
every previously selected element deselected, but it returns before
`setInputs_`, so the hidden inputs are left exactly as they were. -/
theorem external_clear_amended (w : Widget)
    (hv : ∀ i ∈ w.selectedOptions, i < w.elems.length) :
    (selectedAttributeMutated_ SelVal.nullV w).selectedOptions = [] ∧
    (selectedAttributeMutated_ SelVal.nullV w).inputs = w.inputs ∧
    ∀ j ∈ w.selectedOptions, ∃ e,
      (selectedAttributeMutated_ SelVal.nullV w).elems[j]? = some e ∧
      e.hasSelected = false ∧ e.ariaSelected = some "false" := by
  have heq : selectedAttributeMutated_ SelVal.nullV w = clearAllSelections_ w := rfl
  rw [heq]
  refine ⟨clearAllSelections_sel_nil w, clearAllSelections_inputs w, ?_⟩
  intro j hj
  rcases clearAllSelections_clears w j hj (hv j hj) with ⟨e, he, hd⟩
  exact ⟨e, he, hd.1, hd.2⟩

/-- Witness for C2 (amended), at the initialized two-option multi-select
widget. -/
theorem external_clear_amended_witness :
    (∀ i ∈ (init_ twoSelMulti).selectedOptions, i < (init_ twoSelMulti).elems.length) ∧
    ((selectedAttributeMutated_ SelVal.nullV (init_ twoSelMulti)).selectedOptions = [] ∧
      (selectedAttributeMutated_ SelVal.nullV (init_ twoSelMulti)).inputs =
        (init_ twoSelMulti).inputs ∧
      ∀ j ∈ (init_ twoSelMulti).selectedOptions, ∃ e,
        (selectedAttributeMutated_ SelVal.nullV (init_ twoSelMulti)).elems[j]? = some e ∧
        e.hasSelected = false ∧ e.ariaSelected = some "false") :=
  ⟨by decide, external_clear_amended (init_ twoSelMulti) (by decide)⟩

/-- C3 (the code lacks the guard the specification requires): on a
keyboard-focus widget with zero options, every navigation key makes the
handler read `options_[focusedIndex_]`, which is `undefined`, and the
`tabIndex` write throws, modelled as `Except.error`; the handler is not
a no-op. -/
theorem keydown_zero_options_throws :
    keyDownHandler_ true Key.downArrow zeroOptionsWidget =
      Except.error "TypeError: no option at focusedIndex" ∧
    keyDownHandler_ true Key.upArrow zeroOptionsWidget =
      Except.error "TypeError: no option at focusedIndex" ∧
    keyDownHandler_ true Key.leftArrow zeroOptionsWidget =
      Except.error "TypeError: no option at focusedIndex" ∧
    keyDownHandler_ true Key.rightArrow zeroOptionsWidget =
      Except.error "TypeError: no option at focusedIndex" :=
  ⟨rfl, rfl, rfl, rfl⟩

theorem markedB_eq (l : List OptionEl) (j : Nat) :
    markedB l j = ((l[j]?).map OptionEl.hasSelected).getD false := by
  unfold markedB
  rcases l[j]? with _ | e <;> rfl

theorem markedB_modify_pres (w : Widget) (i : Nat) (f : OptionEl → OptionEl)
    (hf : ∀ e, (f e).hasSelected = e.hasSelected) (j : Nat) :
    markedB (modifyElem w i f).elems j = markedB w.elems j := by
  rw [markedB_eq, markedB_eq, modifyElem_getElem_map w i f j OptionEl.hasSelected hf]

theorem lastSel_lt (l : List OptionEl) :
    ∀ k j, lastSel l k = some j → j < k ∧ markedB l j = true := by
  intro k
  induction k with
  | zero =>
    intro j h
    cases h
  | succ k ih =>
    intro j h
    unfold lastSel at h
    by_cases hmk : markedB l k = true
    · rw [if_pos hmk] at h
      obtain rfl : k = j := Option.some_inj.mp h
      exact ⟨Nat.lt_succ_self k, hmk⟩
    · rw [if_neg hmk] at h
      obtain ⟨h1, h2⟩ := ih j h
      exact ⟨by omega, h2⟩

theorem lastSel_last (l : List OptionEl) (m : Nat) (hmk : markedB l m = true)
    (hlast : ∀ j, m < j → markedB l j = false) :
    ∀ k, m < k → lastSel l k = some m := by
  intro k
  induction k with
  | zero =>
    intro h
    omega
  | succ k ih =>
    intro h
    unfold lastSel
    by_cases hk : k = m
    · subst hk
      rw [if_pos hmk]
    · have hk2 : m < k := by omega
      rw [if_neg (by rw [hlast k hk2]; simp)]
      exact ih hk2

theorem selPhase_marked (wa : Widget) (w0elems : List OptionEl) (k : Nat)
    (hm : wa.isMultiple = false)
    (hlen : wa.elems.length = w0elems.length)
    (hklen : k < w0elems.length)
    (hsel : wa.selectedOptions = (lastSel w0elems k).toList)
    (hmarked : ∀ j, j < k → markedB wa.elems j = decide (lastSel w0elems k = some j)) :
    (setSelection_ k wa).isMultiple = false ∧
    (setSelection_ k wa).elems.length = w0elems.length ∧
    (setSelection_ k wa).selectedOptions = [k] ∧
    markedB (setSelection_ k wa).elems k = true ∧
    (∀ j, j < k → markedB (setSelection_ k wa).elems j = false) ∧
    (∀ j, k + 1 ≤ j → (setSelection_ k wa).elems[j]? = wa.elems[j]?) := by
  have hmemlt : ∀ j ∈ wa.selectedOptions, j < k := by
    rw [hsel]
    intro j hj
    rcases hls : lastSel w0elems k with _ | m
    · rw [hls] at hj
      cases hj
    · rw [hls] at hj
      have hjm : j = m := by
        simpa using hj
      subst hjm
      exact (lastSel_lt w0elems k j hls).1
  have hk_notin : k ∉ wa.selectedOptions := fun h => absurd (hmemlt k h) (lt_irrefl k)
  have hcont : wa.selectedOptions.contains k = false := by
    cases hx : wa.selectedOptions.contains k
    · rfl
    · exfalso
      have hmem : k ∈ wa.selectedOptions := by
        have hx2 := hx
        simp [List.contains, List.elem_eq_mem] at hx2
        exact hx2
      exact hk_notin hmem
  have hklen2 : k < wa.elems.length := by omega
  refine ⟨?_, ?_, ?_, ?_, ?_, ?_⟩
  · rw [setSelection_isMultiple]
    exact hm
  · rw [setSelection_elems_length]
    exact hlen
  · exact setSelection_sel_single k wa hm hcont
  · exact setSelection_marked_self k wa hcont hklen2
  · intro j hj
    by_cases hjin : j ∈ wa.selectedOptions
    · exact setSelection_unmarks_old k j wa hm hcont hjin (by omega)
    · have hne : j ≠ k := by omega
      have huj : (setSelection_ k wa).elems[j]? = wa.elems[j]? :=
        setSelection_untouched k j wa hne hjin
      rw [markedB_eq, huj, ← markedB_eq, hmarked j hj]
      rcases hls : lastSel w0elems k with _ | m
      · simp
      · have hjm : j ≠ m := by
          intro e
          subst e
          rw [hsel, hls] at hjin
          simp at hjin
        simp [Ne.symm hjm]
  · intro j hj
    have hne : j ≠ k := by omega
    have hjin : j ∉ wa.selectedOptions := fun h => by
      have := hmemlt j h
      omega
    exact setSelection_untouched k j wa hne hjin

theorem selPhase_unmarked (wa : Widget) (w0elems : List OptionEl) (k : Nat)
    (hm : wa.isMultiple = false)
    (hlen : wa.elems.length = w0elems.length)
    (hklen : k < w0elems.length)
    (hsel : wa.selectedOptions = (lastSel w0elems k).toList) :
    (clearSelection_ k wa).isMultiple = false ∧
    (clearSelection_ k wa).elems.length = w0elems.length ∧
    (clearSelection_ k wa).selectedOptions = (lastSel w0elems k).toList ∧
    markedB (clearSelection_ k wa).elems k = false ∧
    (∀ j, j ≠ k → markedB (clearSelection_ k wa).elems j = markedB wa.elems j) ∧
    (∀ j, k + 1 ≤ j → (clearSelection_ k wa).elems[j]? = wa.elems[j]?) := by
  have hmemlt : ∀ j ∈ wa.selectedOptions, j < k := by
    rw [hsel]
    intro j hj
    rcases hls : lastSel w0elems k with _ | m
    · rw [hls] at hj
      cases hj
    · rw [hls] at hj
      have hjm : j = m := by
        simpa using hj
      subst hjm
      exact (lastSel_lt w0elems k j hls).1
  have hk_notin : k ∉ wa.selectedOptions := fun h => absurd (hmemlt k h) (lt_irrefl k)
  have hklen2 : k < wa.elems.length := by omega
  refine ⟨?_, ?_, ?_, ?_, ?_, ?_⟩
  · rw [clearSelection_isMultiple]
    exact hm
  · rw [clearSelection_elems_length]
    exact hlen
  · rw [clearSelection_selectedOptions, List.erase_of_not_mem hk_notin]
    exact hsel
  · rcases clearSelection_deselected k wa hklen2 with ⟨e, he, hd⟩
    rw [markedB_eq, he]
    simpa using hd.1
  · intro j hj
    rw [markedB_eq, clearSelection_getElem_ne k wa j hj, ← markedB_eq]
  · intro j hj
    exact clearSelection_getElem_ne k wa j (by omega)

theorem lastSel_succ (l : List OptionEl) (k : Nat) :
    lastSel l (k + 1) = if markedB l k then some k else lastSel l k := rfl

theorem initTail_marked (w2 : Widget) (w0elems : List OptionEl) (k : Nat)
    (hm : w2.isMultiple = false)
    (hlen : w2.elems.length = w0elems.length)
    (hklen : k < w0elems.length)
    (hsel : w2.selectedOptions = (lastSel w0elems k).toList)
    (huntouched : ∀ j, k + 1 ≤ j → w2.elems[j]? = w0elems[j]?)
    (hmarked : ∀ j, j < k → markedB w2.elems j = decide (lastSel w0elems k = some j))
    (hmk0 : markedB w0elems k = true) :
    (modifyElem (setSelection_ k w2) k (fun el => { el with tabIndex := 0 })).isMultiple
      = false ∧
    (modifyElem (setSelection_ k w2) k
      (fun el => { el with tabIndex := 0 })).elems.length = w0elems.length ∧
    (modifyElem (setSelection_ k w2) k
      (fun el => { el with tabIndex := 0 })).selectedOptions =
      (lastSel w0elems (k + 1)).toList ∧
    (∀ j, k + 1 ≤ j →
      (modifyElem (setSelection_ k w2) k (fun el => { el with tabIndex := 0 })).elems[j]? =
        w0elems[j]?) ∧
    (∀ j, j < k + 1 →
      markedB (modifyElem (setSelection_ k w2) k
        (fun el => { el with tabIndex := 0 })).elems j =
      decide (lastSel w0elems (k + 1) = some j)) := by
  obtain ⟨pm, plen, psel, pmark, pold, puntouched⟩ :=
    selPhase_marked w2 w0elems k hm hlen hklen hsel hmarked
  have hls1 : lastSel w0elems (k + 1) = some k := by
    rw [lastSel_succ, if_pos hmk0]
  refine ⟨?_, ?_, ?_, ?_, ?_⟩
  · rw [modifyElem_isMultiple]
    exact pm
  · rw [modifyElem_elems_length]
    exact plen
  · rw [modifyElem_selectedOptions, psel, hls1]
    rfl
  · intro j hj
    rw [modifyElem_getElem_ne _ _ _ _ (by omega : j ≠ k), puntouched j hj]
    exact huntouched j hj
  · intro j hj
    rw [markedB_modify_pres (setSelection_ k w2) k
      (fun el => { el with tabIndex := 0 }) (fun e => rfl) j]
    by_cases hjk : j = k
    · subst hjk
      rw [pmark, hls1]
      simp
    · have hjlt : j < k := by omega
      rw [pold j hjlt, hls1]
      simp [Ne.symm hjk]

theorem initTail_unmarked (w2 : Widget) (w0elems : List OptionEl) (k : Nat)
    (hm : w2.isMultiple = false)
    (hlen : w2.elems.length = w0elems.length)
    (hklen : k < w0elems.length)
    (hsel : w2.selectedOptions = (lastSel w0elems k).toList)
    (huntouched : ∀ j, k + 1 ≤ j → w2.elems[j]? = w0elems[j]?)
    (hmarked : ∀ j, j < k → markedB w2.elems j = decide (lastSel w0elems k = some j))
    (hmk0 : markedB w0elems k = false) :
    (modifyElem (clearSelection_ k w2) k (fun el => { el with tabIndex := 0 })).isMultiple
      = false ∧
    (modifyElem (clearSelection_ k w2) k
      (fun el => { el with tabIndex := 0 })).elems.length = w0elems.length ∧
    (modifyElem (clearSelection_ k w2) k
      (fun el => { el with tabIndex := 0 })).selectedOptions =
      (lastSel w0elems (k + 1)).toList ∧
    (∀ j, k + 1 ≤ j →
      (modifyElem (clearSelection_ k w2) k (fun el => { el with tabIndex := 0 })).elems[j]? =
        w0elems[j]?) ∧
    (∀ j, j < k + 1 →
      markedB (modifyElem (clearSelection_ k w2) k
        (fun el => { el with tabIndex := 0 })).elems j =
      decide (lastSel w0elems (k + 1) = some j)) := by
  obtain ⟨pm, plen, psel, pmark, pres, puntouched⟩ :=
    selPhase_unmarked w2 w0elems k hm hlen hklen hsel
  have hls0 : lastSel w0elems (k + 1) = lastSel w0elems k := by
    rw [lastSel_succ, if_neg (by rw [hmk0]; simp)]
  have hnotk : lastSel w0elems k ≠ some k := fun h =>
    absurd (lastSel_lt w0elems k k h).1 (lt_irrefl k)
  refine ⟨?_, ?_, ?_, ?_, ?_⟩
  · rw [modifyElem_isMultiple]
    exact pm
  · rw [modifyElem_elems_length]
    exact plen
  · rw [modifyElem_selectedOptions, psel, hls0]
  · intro j hj
    rw [modifyElem_getElem_ne _ _ _ _ (by omega : j ≠ k), puntouched j hj]
    exact huntouched j hj
  · intro j hj
    rw [markedB_modify_pres (clearSelection_ k w2) k
      (fun el => { el with tabIndex := 0 }) (fun e => rfl) j, hls0]
    by_cases hjk : j = k
    · subst hjk
      rw [pmark]
      simp [hnotk]
    · have hjlt : j < k := by omega
      rw [pres j hjk]
      exact hmarked j hjlt

theorem initStep_inv (wk : Widget) (w0elems : List OptionEl) (k : Nat)
    (hm : wk.isMultiple = false)
    (hlen : wk.elems.length = w0elems.length)
    (hklen : k < w0elems.length)
    (hsel : wk.selectedOptions = (lastSel w0elems k).toList)
    (huntouched : ∀ j, k ≤ j → wk.elems[j]? = w0elems[j]?)
    (hmarked : ∀ j, j < k → markedB wk.elems j = decide (lastSel w0elems k = some j)) :
    (initStep wk k).isMultiple = false ∧
    (initStep wk k).elems.length = w0elems.length ∧
    (initStep wk k).selectedOptions = (lastSel w0elems (k + 1)).toList ∧
    (∀ j, k + 1 ≤ j → (initStep wk k).elems[j]? = w0elems[j]?) ∧
    (∀ j, j < k + 1 → markedB (initStep wk k).elems j =
      decide (lastSel w0elems (k + 1) = some j)) := by
  have hex : ∃ el0, w0elems[k]? = some el0 := by
    rw [List.getElem?_eq_getElem hklen]
    exact ⟨_, rfl⟩
  rcases hex with ⟨el0, hel0⟩
  have hwk_k : wk.elems[k]? = some el0 := by
    rw [huntouched k (Nat.le_refl k), hel0]
  have hmk0 : markedB w0elems k = el0.hasSelected := by
    rw [markedB_eq, hel0]
    rfl
  have hb1 : (modifyElem wk k (fun el => { el with role := some "option" })).elems[k]?
      = some { el0 with role := some "option" } :=
    modifyElem_getElem_self wk k _ el0 hwk_k
  have hm1 : (modifyElem wk k (fun el => { el with role := some "option" })).isMultiple
      = false := by
    rw [modifyElem_isMultiple]
    exact hm
  have hlen1 : (modifyElem wk k
      (fun el => { el with role := some "option" })).elems.length = w0elems.length := by
    rw [modifyElem_elems_length]
    exact hlen
  have hsel1 : (modifyElem wk k
      (fun el => { el with role := some "option" })).selectedOptions =
      (lastSel w0elems k).toList := by
    rw [modifyElem_selectedOptions]
    exact hsel
  have hunt1 : ∀ j, k + 1 ≤ j →
      (modifyElem wk k (fun el => { el with role := some "option" })).elems[j]? =
      w0elems[j]? := by
    intro j hj
    rw [modifyElem_getElem_ne _ _ _ _ (by omega : j ≠ k)]
    exact huntouched j (by omega)
  have hmark1 : ∀ j, j < k →
      markedB (modifyElem wk k (fun el => { el with role := some "option" })).elems j =
      decide (lastSel w0elems k = some j) := by
    intro j hj
    rw [markedB_modify_pres wk k (fun el => { el with role := some "option" })
      (fun e => rfl) j]
    exact hmarked j hj
  unfold initStep
  dsimp only
  rw [hb1]
  dsimp only
  cases hdis : el0.hasDisabled with
  | true =>
    rw [if_pos rfl]
    have hb2 : (modifyElem (modifyElem wk k (fun el => { el with role := some "option" })) k
        (fun e => { e with ariaDisabled := some "true" })).elems[k]? =
        some { { el0 with role := some "option" } with ariaDisabled := some "true" } :=
      modifyElem_getElem_self _ k _ _ hb1
    rw [hb2]
    dsimp only
    have hm2 : (modifyElem (modifyElem wk k (fun el => { el with role := some "option" })) k
        (fun e => { e with ariaDisabled := some "true" })).isMultiple = false := by
      rw [modifyElem_isMultiple]
      exact hm1
    have hlen2 : (modifyElem (modifyElem wk k
        (fun el => { el with role := some "option" })) k
        (fun e => { e with ariaDisabled := some "true" })).elems.length = w0elems.length := by
      rw [modifyElem_elems_length]
      exact hlen1
    have hsel2 : (modifyElem (modifyElem wk k
        (fun el => { el with role := some "option" })) k
        (fun e => { e with ariaDisabled := some "true" })).selectedOptions =
        (lastSel w0elems k).toList := by
      rw [modifyElem_selectedOptions]
      exact hsel1
    have hunt2 : ∀ j, k + 1 ≤ j →
        (modifyElem (modifyElem wk k (fun el => { el with role := some "option" })) k
          (fun e => { e with ariaDisabled := some "true" })).elems[j]? = w0elems[j]? := by
      intro j hj
      rw [modifyElem_getElem_ne _ _ _ _ (by omega : j ≠ k)]
      exact hunt1 j hj
    have hmark2 : ∀ j, j < k →
        markedB (modifyElem (modifyElem wk k
          (fun el => { el with role := some "option" })) k
          (fun e => { e with ariaDisabled := some "true" })).elems j =
        decide (lastSel w0elems k = some j) := by
      intro j hj
      rw [markedB_modify_pres (modifyElem wk k (fun el => { el with role := some "option" }))
        k (fun e => { e with ariaDisabled := some "true" }) (fun e => rfl) j]
      exact hmark1 j hj
    cases hmk : el0.hasSelected with
    | true =>
      rw [hmk] at hmk0
      rw [if_pos rfl]
      exact initTail_marked _ w0elems k hm2 hlen2 hklen hsel2 hunt2 hmark2 hmk0
    | false =>
      rw [hmk] at hmk0
      rw [if_neg (by simp)]
      exact initTail_unmarked _ w0elems k hm2 hlen2 hklen hsel2 hunt2 hmark2 hmk0
  | false =>
    rw [if_neg (by simp)]
    rw [hb1]
    dsimp only
    cases hmk : el0.hasSelected with
    | true =>
      rw [hmk] at hmk0
      rw [if_pos rfl]
      exact initTail_marked _ w0elems k hm1 hlen1 hklen hsel1 hunt1 hmark1 hmk0
    | false =>
      rw [hmk] at hmk0
      rw [if_neg (by simp)]
      exact initTail_unmarked _ w0elems k hm1 hlen1 hklen hsel1 hunt1 hmark1 hmk0

theorem initFold_inv (w0 : Widget) (hm : w0.isMultiple = false)
    (hsel : w0.selectedOptions = []) :
    ∀ k, k ≤ w0.elems.length →
      ((List.range k).foldl initStep w0).isMultiple = false ∧
      ((List.range k).foldl initStep w0).elems.length = w0.elems.length ∧
      ((List.range k).foldl initStep w0).selectedOptions = (lastSel w0.elems k).toList ∧
      (∀ j, k ≤ j → ((List.range k).foldl initStep w0).elems[j]? = w0.elems[j]?) ∧
      (∀ j, j < k → markedB ((List.range k).foldl initStep w0).elems j =
        decide (lastSel w0.elems k = some j)) := by
  intro k
  induction k with
  | zero =>
    intro _
    refine ⟨hm, rfl, ?_, fun j _ => rfl, fun j hj => absurd hj (by omega)⟩
    rw [show (List.range 0).foldl initStep w0 = w0 from rfl, hsel]
    rfl
  | succ k ih =>
    intro hk1
    have hk : k ≤ w0.elems.length := by omega
    obtain ⟨im, ilen, isel, iunt, imark⟩ := ih hk
    have hklen : k < w0.elems.length := by omega
    simp only [List.range_succ, List.foldl_append, List.foldl_cons, List.foldl_nil]
    exact initStep_inv _ w0.elems k im ilen hklen isel iunt imark

/-- C10: initialization of a single-select widget whose markup marks
several options `selected` applies Select to each marked option in
document order, each clearing the previous selection, so after `init_`
exactly the last marked option is selected and every earlier marked
option has lost its `selected` attribute. -/
theorem init_single_select_last_marked_wins (w : Widget) (m : Nat)
    (hm : w.isMultiple = false)
    (hsel : w.selectedOptions = [])
    (hmlen : m < w.elems.length)
    (hmarked : markedB w.elems m = true)
    (hlast : ∀ j, m < j → markedB w.elems j = false)
    (hearlier : ∃ j0, j0 < m ∧ markedB w.elems j0 = true) :
    (init_ w).selectedOptions = [m] ∧
    (∀ j, j < w.elems.length → markedB (init_ w).elems j = decide (j = m)) := by
  obtain ⟨im, ilen, isel, iunt, imark⟩ :=
    initFold_inv w hm hsel w.elems.length (Nat.le_refl _)
  have hlsfull : lastSel w.elems w.elems.length = some m :=
    lastSel_last w.elems m hmarked hlast w.elems.length hmlen
  have hinit_sel : (init_ w).selectedOptions =
      ((List.range w.elems.length).foldl initStep w).selectedOptions := by
    unfold init_
    dsimp only
    rw [setInputs_fst_selectedOptions, updateFocus_selectedOptions]
  have hinit_marked : ∀ j, markedB (init_ w).elems j =
      markedB ((List.range w.elems.length).foldl initStep w).elems j := by
    intro j
    unfold init_
    dsimp only
    rw [markedB_eq, setInputs_fst_elems,
      updateFocus_getElem_map OptionEl.hasSelected (fun e => rfl) (fun e => rfl) _ j,
      ← markedB_eq]
  constructor
  · rw [hinit_sel, isel, hlsfull]
    rfl
  · intro j hj
    rw [hinit_marked j, imark j hj, hlsfull]
    exact decide_eq_decide.mpr
      ⟨fun h => (Option.some_inj.mp h).symm, fun h => by rw [h]⟩

/-- Witness for C10: a single-select widget whose three options are all
marked `selected` in the markup; after `init_` only the last one is
selected. -/
theorem init_single_select_last_marked_wins_witness :
    threeSelSingle.isMultiple = false ∧
    markedB threeSelSingle.elems 2 = true ∧
    (∃ j0, j0 < 2 ∧ markedB threeSelSingle.elems j0 = true) ∧
    (init_ threeSelSingle).selectedOptions = [2] ∧
    (∀ j, j < threeSelSingle.elems.length →
      markedB (init_ threeSelSingle).elems j = decide (j = 2)) := by
  have hlast : ∀ j, 2 < j → markedB threeSelSingle.elems j = false := by
    intro j hj
    rw [markedB_eq, List.getElem?_eq_none ?hlen]
    · rfl
    case hlen =>
      have h3 : threeSelSingle.elems.length = 3 := by decide
      omega
  have hmain := init_single_select_last_marked_wins threeSelSingle 2
    (by decide) (by decide) (by decide) (by decide) hlast ⟨0, by decide, by decide⟩
  exact ⟨by decide, by decide, ⟨0, by decide, by decide⟩, hmain.1, hmain.2⟩
